import Mathlib

/-!
Shallow embedding of the Flowdos client-side API layer: the validation module
(validateMessage, validateConversationId, validateUserId, validateMetadata,
validateChatRequest, sanitizeMessage, prepareChatRequest), the error
normalizer (handleChatKitError), the request clients' status handling, and
the localStorage-backed conversation cache (getUserConversations,
saveConversation, clearUserConversations) together with the auth helper.

JavaScript strings are modelled as Lean String, JS `undefined`/`null` as
Option, the ambient localStorage as an association list, fetch responses as
explicit HttpResponse values, and a thrown runtime exception as Except.error.
-/

/-- The single-quote character, written by code point to keep source text simple. -/
def squote : Char := Char.ofNat 39

/-- Substring test on character lists: does the pattern occur contiguously? -/
def listContains (pat : List Char) : List Char → Bool
  | [] => pat.isEmpty
  | c :: rest => pat.isPrefixOf (c :: rest) || listContains pat rest

/-- Model of JavaScript `s.includes(pat)`. -/
def strContains (s pat : String) : Bool :=
  listContains pat.toList s.toList

/-- Model of JS `x.f || fallback` where `x.f` is a possibly-missing string field:
missing and empty strings are falsy. -/
def jsOrElse (v : Option String) (fallback : String) : String :=
  match v with
  | some s => if s == "" then fallback else s
  | none => fallback

/-- Model of the JS check `!message || message.trim().length === 0`:
true exactly when the string is empty or all whitespace. -/
def isBlank (m : String) : Bool :=
  m.toList.all Char.isWhitespace

/-- `ValidationResult` from the validation module: `isValid`, `errors`,
optional `warnings` (the field is left `undefined`, i.e. `none`, when there
are no warnings). -/
structure ValidationResult where
  isValid : Bool
  errors : List String
  warnings : Option (List String) := none
deriving DecidableEq, Repr

def emptyMessageError : String := "Message cannot be empty"

/-- The template literal from validateMessage's length check. -/
def lengthErrorMsg (n : Nat) : String :=
  "Message exceeds maximum length of 4000 characters (" ++ toString n ++ " characters)"

def specialCharsWarning : String :=
  "Message contains special characters that may be sanitized by the server"

/-- The character class of the regex `/[<>'"&]/` used by validateMessage. -/
def hasSpecialChar (m : String) : Bool :=
  m.toList.any (fun c => c == '<' || c == '>' || c == squote || c == '"' || c == '&')

/-- `validateMessage` from the validation module: empty check, 4000-character
length check, special-character warning. -/
def validateMessage (message : String) : ValidationResult :=
  let errors :=
    (if isBlank message then [emptyMessageError] else []) ++
    (if message.length > 4000 then [lengthErrorMsg message.length] else [])
  let warnings := if hasSpecialChar message then [specialCharsWarning] else []
  { isValid := errors.length == 0
    errors := errors
    warnings := if warnings.length > 0 then some warnings else none }

/-- `validateConversationId`: `null` (`none`) is accepted; otherwise the id
must be a non-empty string of at most 100 characters. -/
def validateConversationId (id : Option String) : ValidationResult :=
  match id with
  | none => { isValid := true, errors := [] }
  | some s =>
    let errors :=
      if s == "" then ["Conversation ID must be a valid string or null"]
      else if s.length > 100 then ["Conversation ID exceeds maximum length of 100 characters"]
      else []
    { isValid := errors.length == 0, errors := errors }

/-- Hexadecimal digit, both cases, as matched by `[0-9a-f]` under the `/i` flag. -/
def isHexDigit (c : Char) : Bool :=
  ('0' ≤ c && c ≤ '9') || ('a' ≤ c && c ≤ 'f') || ('A' ≤ c && c ≤ 'F')

/-- Split a character list at every dash, mirroring how the anchored UUID
regex divides its subject into the five dash-separated groups. -/
def splitDashes : List Char → List (List Char)
  | [] => [[]]
  | c :: rest =>
    if c == '-' then [] :: splitDashes rest
    else
      match splitDashes rest with
      | g :: gs => (c :: g) :: gs
      | [] => [[c]]

def headOrSpace (g : List Char) : Char :=
  match g with
  | [] => ' '
  | c :: _ => c

/-- `[0-5]`: the character class constraining the first digit of the third group. -/
def isVersionDigitRegex (c : Char) : Bool := '0' ≤ c && c ≤ '5'

/-- `[089ab]` under `/i`: the class constraining the first digit of the fourth group. -/
def isVariantCharRegex (c : Char) : Bool :=
  c == '0' || c == '8' || c == '9' || c == 'a' || c == 'b' || c == 'A' || c == 'B'

/-- The test of the anchored regex
`/^[0-9a-f]\x7b8\x7d-[0-9a-f]\x7b4\x7d-[0-5][0-9a-f]\x7b3\x7d-[089ab][0-9a-f]\x7b3\x7d-[0-9a-f]\x7b12\x7d$/i`
from validateUserId.  Because the character classes exclude the dash, the
regex matches exactly when splitting at dashes yields five groups of the
required lengths and classes. -/
def uuidRegexTest (s : String) : Bool :=
  match splitDashes s.toList with
  | [g1, g2, g3, g4, g5] =>
    g1.length == 8 && g1.all isHexDigit &&
    g2.length == 4 && g2.all isHexDigit &&
    g3.length == 4 && g3.all isHexDigit && isVersionDigitRegex (headOrSpace g3) &&
    g4.length == 4 && g4.all isHexDigit && isVariantCharRegex (headOrSpace g4) &&
    g5.length == 12 && g5.all isHexDigit
  | _ => false

def userIdStringError : String := "User ID must be a valid string"
def userIdLengthError : String := "User ID exceeds maximum length of 100 characters"
def userIdFormatError : String := "User ID must be a valid UUID format"

/-- `validateUserId`: non-empty/length checks followed by the UUID regex test. -/
def validateUserId (userId : String) : ValidationResult :=
  let shapeErrors :=
    if userId == "" then [userIdStringError]
    else if userId.length > 100 then [userIdLengthError]
    else []
  let formatErrors := if uuidRegexTest userId then [] else [userIdFormatError]
  let errors := shapeErrors ++ formatErrors
  { isValid := errors.length == 0, errors := errors }

/-- JSON-like values, modelling the `any`-typed metadata payload. -/
inductive JsValue where
  | null
  | bool (b : Bool)
  | num (n : Int)
  | str (s : String)
  | arr (elems : List JsValue)
  | obj (fields : List (String × JsValue))

/-- Escaping applied by JSON.stringify to string contents (quote and
backslash; control-character escapes are not modelled, no theorem relies on
them). -/
def jsonEscape (s : String) : String :=
  String.mk (s.toList.foldr (fun c acc => (if c == '"' || c == '\\' then ['\\', c] else [c]) ++ acc) [])

mutual

/-- Model of `JSON.stringify` for the metadata size check. -/
def jsonStringify : JsValue → String
  | JsValue.null => "null"
  | JsValue.bool true => "true"
  | JsValue.bool false => "false"
  | JsValue.num n => toString n
  | JsValue.str s => "\"" ++ jsonEscape s ++ "\""
  | JsValue.arr elems => "[" ++ jsonStringifyList elems ++ "]"
  | JsValue.obj fields => "\x7b" ++ jsonStringifyFields fields ++ "\x7d"

def jsonStringifyList : List JsValue → String
  | [] => ""
  | [v] => jsonStringify v
  | v :: rest => jsonStringify v ++ "," ++ jsonStringifyList rest

def jsonStringifyFields : List (String × JsValue) → String
  | [] => ""
  | [f] => "\"" ++ jsonEscape f.1 ++ "\":" ++ jsonStringify f.2
  | f :: rest => "\"" ++ jsonEscape f.1 ++ "\":" ++ jsonStringify f.2 ++ "," ++ jsonStringifyFields rest

end

/-- JS `typeof v === 'object'` (true for objects, arrays and null). -/
def isJsObject : JsValue → Bool
  | JsValue.arr _ => true
  | JsValue.obj _ => true
  | JsValue.null => true
  | _ => false

/-- Own-property membership, modelling the `key in metadata` test (the
host language's prototype-chain lookup is not modelled). -/
def jsHasKey : JsValue → String → Bool
  | JsValue.obj fields, k => fields.any (fun f => f.1 == k)
  | _, _ => false

def forbiddenKeys : List String := ["__proto__", "constructor", "prototype"]

def metadataSizeErrorMsg (n : Nat) : String :=
  "Metadata exceeds maximum size of 10KB (" ++ toString n ++ " characters)"

def forbiddenKeyErrorMsg (k : String) : String :=
  "Metadata cannot contain " ++ squote.toString ++ k ++ squote.toString ++ " key"

/-- `validateMetadata`: `undefined`/`null` (`none` / `some .null`) are valid;
non-objects are rejected outright; objects are checked for serialized size
and for the reserved keys. -/
def validateMetadata (metadata : Option JsValue) : ValidationResult :=
  match metadata with
  | none => { isValid := true, errors := [] }
  | some JsValue.null => { isValid := true, errors := [] }
  | some v =>
    if !(isJsObject v) then { isValid := false, errors := ["Metadata must be an object"] }
    else
      let metadataSize := (jsonStringify v).length
      let errors :=
        (if metadataSize > 10000 then [metadataSizeErrorMsg metadataSize] else []) ++
        (forbiddenKeys.filter (fun k => jsHasKey v k)).map forbiddenKeyErrorMsg
      { isValid := errors.length == 0, errors := errors }

/-- A chat request: `conversation_id` distinguishes an absent field
(outer `none`, JS `undefined`) from an explicit `null` (inner `none`);
`metadata` is `none` when the field is absent. -/
structure ChatRequest where
  message : String
  conversation_id : Option (Option String) := none
  metadata : Option JsValue := none

/-- `validateChatRequest`: runs the message validator, and, when the fields
are present, the conversation-id and metadata validators; each failing
sub-validator's errors are appended, and the message validator's warnings
are appended only inside its failure branch, exactly as in the source. -/
def validateChatRequest (request : ChatRequest) : ValidationResult :=
  let messageValidation := validateMessage request.message
  let fromMessage : List String × List String :=
    if !messageValidation.isValid then
      (messageValidation.errors,
       match messageValidation.warnings with
       | some w => w
       | none => [])
    else ([], [])
  let fromConversationId : List String :=
    match request.conversation_id with
    | none => []
    | some cid =>
      let conversationValidation := validateConversationId cid
      if !conversationValidation.isValid then conversationValidation.errors else []
  let fromMetadata : List String :=
    match request.metadata with
    | none => []
    | some m =>
      let metadataValidation := validateMetadata (some m)
      if !metadataValidation.isValid then metadataValidation.errors else []
  let errors := fromMessage.1 ++ fromConversationId ++ fromMetadata
  let warnings := fromMessage.2
  { isValid := errors.length == 0
    errors := errors
    warnings := if warnings.length > 0 then some warnings else none }

/-- Elementwise concatenation-map; a single-character global regex replace
is exactly this shape. -/
def concatMap (f : Char → List Char) : List Char → List Char
  | [] => []
  | c :: rest => f c ++ concatMap f rest

/-- JS `str.replace(/t/g, repl)` for a single-character pattern `t`:
each occurrence is substituted, left to right, without rescanning. -/
def replaceChar (target : Char) (repl : List Char) (cs : List Char) : List Char :=
  concatMap (fun c => if c == target then repl else [c]) cs

/-- JS `message.replace(/[<>]/g, "")`: delete every angle bracket. -/
def stripAngles (cs : List Char) : List Char :=
  cs.filter (fun c => !(c == '<' || c == '>'))

def entQuot : List Char := ['&', 'q', 'u', 'o', 't', ';']
def entApos : List Char := ['&', '#', '3', '9', ';']
def entAmp : List Char := ['&', 'a', 'm', 'p', ';']

/-- `sanitizeMessage`: strip angle brackets, then the chained global
replaces of double quote, single quote and ampersand, in source order
(the ampersand replace runs last, over the output of the first two). -/
def sanitizeMessage (message : String) : String :=
  let s1 := stripAngles message.toList
  let s2 := replaceChar '"' entQuot s1
  let s3 := replaceChar squote entApos s2
  let s4 := replaceChar '&' entAmp s3
  String.mk s4

/-- `prepareChatRequest`: validate, and only on success substitute the
sanitized message into the returned request. -/
def prepareChatRequest (request : ChatRequest) : ChatRequest × ValidationResult :=
  let validation := validateChatRequest request
  if !validation.isValid then (request, validation)
  else ({ request with message := sanitizeMessage request.message }, validation)

/-- A raw JS error-like value as handled by `handleChatKitError`: any of the
fields may be absent (`undefined`).  `details` lets a created error carry the
original raw error, as `createChatKitError` does. -/
inductive RawError where
  | mk (type : Option String) (message : Option String) (name : Option String)
       (status : Option Int) (details : Option RawError)

def RawError.type : RawError → Option String
  | RawError.mk t _ _ _ _ => t

def RawError.message : RawError → Option String
  | RawError.mk _ m _ _ _ => m

def RawError.errName : RawError → Option String
  | RawError.mk _ _ n _ _ => n

def RawError.status : RawError → Option Int
  | RawError.mk _ _ _ st _ => st

/-- JS truthiness of a possibly-absent string field. -/
def truthyStr : Option String → Bool
  | none => false
  | some s => s != ""

/-- JS truthiness of a possibly-absent numeric field. -/
def truthyInt : Option Int → Bool
  | none => false
  | some n => n != 0

/-- `createChatKitError(type, message, status?, details?)`. -/
def createChatKitError (ty msg : String) (status : Option Int) (details : Option RawError) : RawError :=
  RawError.mk (some ty) (some msg) none status details

def networkErrorMsg : String := "Network connection failed. Please check your internet connection."
def authRequiredMsg : String := "Authentication required. Please sign in to continue."
def accessDeniedMsg : String := "Access denied. Please verify your permissions."
def invalidRequestMsg : String := "Invalid request data. Please check your input."
def rateLimitMsg : String := "Rate limit exceeded. Please try again later."
def serviceUnavailableMsg : String := "Service temporarily unavailable. Please try again later."
def unknownErrorMsg : String := "An unexpected error occurred. Please try again."

def serverErrorMsg (n : Int) : String :=
  "Server error (" ++ toString n ++ "). Please try again."

/-- The runtime exception raised when `error.message.includes` is evaluated
with `error.message` undefined. -/
def undefinedIncludesError : String :=
  "TypeError: cannot read properties of undefined (reading includes)"

/-- `handleChatKitError`, including its evaluation order: the pass-through
test, then `error.name === 'TypeError' || error.message.includes('fetch')`
(which throws when `message` is absent), then the status switch, else the
unknown-error default.  A thrown exception is `Except.error`. -/
def handleChatKitError (error : RawError) : Except String RawError :=
  if truthyStr error.type && truthyStr error.message then Except.ok error
  else if error.errName == some "TypeError" then
    Except.ok (createChatKitError "network" networkErrorMsg none (some error))
  else
    match error.message with
    | none => Except.error undefinedIncludesError
    | some msg =>
      if strContains msg "fetch" then
        Except.ok (createChatKitError "network" networkErrorMsg none (some error))
      else if truthyInt error.status then
        match error.status with
        | some 401 => Except.ok (createChatKitError "authentication" authRequiredMsg (some 401) (some error))
        | some 403 => Except.ok (createChatKitError "authentication" accessDeniedMsg (some 403) (some error))
        | some 422 => Except.ok (createChatKitError "validation" invalidRequestMsg (some 422) (some error))
        | some 429 => Except.ok (createChatKitError "server" rateLimitMsg (some 429) (some error))
        | some 500 => Except.ok (createChatKitError "server" serviceUnavailableMsg (some 500) (some error))
        | some 502 => Except.ok (createChatKitError "server" serviceUnavailableMsg (some 502) (some error))
        | some 503 => Except.ok (createChatKitError "server" serviceUnavailableMsg (some 503) (some error))
        | some 504 => Except.ok (createChatKitError "server" serviceUnavailableMsg (some 504) (some error))
        | some n => Except.ok (createChatKitError "server" (serverErrorMsg n) (some n) (some error))
        | none => Except.ok (createChatKitError "unknown" unknownErrorMsg none (some error))
      else
        Except.ok (createChatKitError "unknown" unknownErrorMsg none (some error))

/-- The browser's localStorage, as an association list of string keys and values. -/
abbrev LocalStorage := List (String × String)

def lsGet (ls : LocalStorage) (k : String) : Option String :=
  (ls.find? (fun kv => kv.1 == k)).map (fun kv => kv.2)

def lsSet (ls : LocalStorage) (k v : String) : LocalStorage :=
  ls.filter (fun kv => kv.1 != k) ++ [(k, v)]

def lsRemove (ls : LocalStorage) (k : String) : LocalStorage :=
  ls.filter (fun kv => kv.1 != k)

def TOKEN_KEY : String := "access_token"
def USER_KEY : String := "user"

/-- `getToken` from the auth helper; `window` is false in a non-browser context. -/
def getToken (window : Bool) (ls : LocalStorage) : Option String :=
  if !window then none else lsGet ls TOKEN_KEY

/-- `storeAuth(token, user)`; the user record is stored JSON-serialized. -/
def storeAuth (window : Bool) (ls : LocalStorage) (token userJson : String) : LocalStorage :=
  if !window then ls else lsSet (lsSet ls TOKEN_KEY token) USER_KEY userJson

/-- `clearAuth()`: remove both keys. -/
def clearAuth (window : Bool) (ls : LocalStorage) : LocalStorage :=
  if !window then ls else lsRemove (lsRemove ls TOKEN_KEY) USER_KEY

/-- `isAuthenticated()`. -/
def isAuthenticated (window : Bool) (ls : LocalStorage) : Bool :=
  getToken window ls != none

/-- An HTTP response as seen by the clients: the status code, the `detail`
field of the parsed error body (`none` when missing or unparseable), and the
raw success payload. -/
structure HttpResponse where
  status : Nat
  detail : Option String := none
  body : String := ""

/-- `response.ok` per the fetch specification: status in 200..299. -/
def isOkStatus (status : Nat) : Bool := 200 ≤ status && status ≤ 299

/-- `ReminderClient.request`: on a non-ok response, a 401 clears the auth
store and throws; other statuses throw with the body's `detail` or a
synthesized message.  The result pairs the updated store with the outcome. -/
def reminderClientRequest (window : Bool) (ls : LocalStorage) (resp : HttpResponse) :
    LocalStorage × Except String String :=
  if !(isOkStatus resp.status) then
    if resp.status == 401 then
      (clearAuth window ls, Except.error "Authentication failed. Please log in again.")
    else
      (ls, Except.error (jsOrElse resp.detail ("HTTP error! status: " ++ toString resp.status)))
  else (ls, Except.ok resp.body)

/-- `ReminderClient.deleteReminder`: same error handling as `request`, but
the success path returns nothing (204 No Content is not parsed). -/
def reminderClientDeleteReminder (window : Bool) (ls : LocalStorage) (resp : HttpResponse) :
    LocalStorage × Except String Unit :=
  if !(isOkStatus resp.status) then
    if resp.status == 401 then
      (clearAuth window ls, Except.error "Authentication failed. Please log in again.")
    else
      (ls, Except.error (jsOrElse resp.detail ("HTTP error! status: " ++ toString resp.status)))
  else (ls, Except.ok ())

/-- `ChatAPIClient.sendMessage`: any non-ok response throws a generic
message; the auth store is never touched. -/
def chatAPIClientSendMessage (window : Bool) (ls : LocalStorage) (resp : HttpResponse) :
    LocalStorage × Except String String :=
  if !(isOkStatus resp.status) then
    (ls, Except.error ("HTTP error! status: " ++ toString resp.status))
  else (ls, Except.ok resp.body)

/-- The chat adapter's `sendMessage` error path (`errorData.detail ||
errorData.error || fallback`); `errField` is the body's `error` field. -/
def adapterSendMessage (window : Bool) (ls : LocalStorage) (resp : HttpResponse)
    (errField : Option String) : LocalStorage × Except String String :=
  if !(isOkStatus resp.status) then
    (ls, Except.error (jsOrElse resp.detail (jsOrElse errField ("HTTP error! status: " ++ toString resp.status))))
  else (ls, Except.ok resp.body)

/-- The primary module's `ApiResponse` value. -/
structure ApiResponse where
  data : Option String
  error : Option String
  status : Nat
deriving DecidableEq, Repr

/-- `apiRequest`: a 401 runs `handleUnauthorized` (clear auth and, in a
browser, redirect — the Bool of the result records the redirect) and returns
an error value; other non-ok statuses return the body's `detail` or
`HTTP <status>`; ok responses return the parsed body. -/
def apiRequest (window : Bool) (ls : LocalStorage) (resp : HttpResponse) :
    LocalStorage × Bool × ApiResponse :=
  if resp.status == 401 then
    (clearAuth window ls, window,
     { data := none, error := some "Unauthorized - Please log in again", status := 401 })
  else if !(isOkStatus resp.status) then
    (ls, false,
     { data := none, error := some (jsOrElse resp.detail ("HTTP " ++ toString resp.status)), status := resp.status })
  else
    (ls, false, { data := some resp.body, error := none, status := resp.status })

/-- `ConversationMetadata` records of the local conversation cache;
`none` models an absent optional field. -/
structure ConversationMetadata where
  id : String
  userId : String
  title : Option String := none
  createdAt : String
  updatedAt : String
  lastMessage : Option String := none
deriving DecidableEq, Repr

/-- The value stored under the aggregate conversation key: absent,
unparseable JSON, or a parsed record list. -/
inductive StoredConvs where
  | absent
  | corrupt
  | stored (xs : List ConversationMetadata)
deriving DecidableEq, Repr

/-- The slice of localStorage the conversation service uses: the aggregate
list and the current-conversation pointer. -/
structure ConvState where
  convs : StoredConvs
  current : Option String := none
deriving DecidableEq, Repr

/-- `getUserConversations(userId)`: read the full list (missing or
unparseable storage yields the empty list) and filter by user. -/
def getUserConversations (window : Bool) (userId : String) (s : ConvState) :
    List ConversationMetadata :=
  if !window then []
  else
    match s.convs with
    | StoredConvs.absent => []
    | StoredConvs.corrupt => []
    | StoredConvs.stored xs => xs.filter (fun conv => conv.userId == userId)

/-- JS `Array.prototype.findIndex`, with `none` for -1. -/
def jsFindIndex (p : α → Bool) : List α → Option Nat
  | [] => none
  | a :: t => if p a then some 0 else (jsFindIndex p t).map (fun i => i + 1)

/-- Array read `l[i]` (the callers only use indices produced by findIndex). -/
def getAt (dflt : α) : List α → Nat → α
  | [], _ => dflt
  | a :: _, 0 => a
  | _ :: t, n + 1 => getAt dflt t n

/-- Array index assignment `l[i] = x`. -/
def setAt : List α → Nat → α → List α
  | [], _, _ => []
  | _ :: t, 0, x => x :: t
  | a :: t, n + 1, x => a :: setAt t n x

/-- The object spread `\x7b...existing[i], ...conversation, updatedAt: now\x7d`:
every field present on `conversation` overwrites, absent optional fields
keep the old value, and `updatedAt` is refreshed. -/
def mergeConversation (old c : ConversationMetadata) (now : String) : ConversationMetadata :=
  { id := c.id
    userId := c.userId
    title := match c.title with
      | some t => some t
      | none => old.title
    createdAt := c.createdAt
    updatedAt := now
    lastMessage := match c.lastMessage with
      | some lm => some lm
      | none => old.lastMessage }

/-- The push branch: stamp `createdAt` (kept when truthy) and `updatedAt`. -/
def stampNew (c : ConversationMetadata) (now : String) : ConversationMetadata :=
  { c with
    createdAt := if c.createdAt != "" then c.createdAt else now
    updatedAt := now }

/-- The findIndex/assign-or-push body of `saveConversation`. -/
def upsertConversation (c : ConversationMetadata) (now : String)
    (existing : List ConversationMetadata) : List ConversationMetadata :=
  match jsFindIndex (fun conv => conv.id == c.id) existing with
  | some i => setAt existing i (mergeConversation (getAt c existing i) c now)
  | none => existing ++ [stampNew c now]

/-- `saveConversation(conversation)` at time `now`: read the user's
conversations (parse failures are swallowed inside the read, yielding `[]`),
upsert, and write the result back as the whole stored list. -/
def saveConversation (window : Bool) (now : String) (c : ConversationMetadata)
    (s : ConvState) : ConvState :=
  if !window then s
  else
    let existing := getUserConversations window c.userId s
    { s with convs := StoredConvs.stored (upsertConversation c now existing) }

/-- The body of `clearUserConversations` once the full list has been parsed. -/
def clearUserConversationsCore (all : List ConversationMetadata) (userId : String)
    (s : ConvState) : ConvState :=
  let filtered := all.filter (fun conv => conv.userId != userId)
  let s1 : ConvState := { s with convs := StoredConvs.stored filtered }
  match s1.current with
  | some currentId =>
    if currentId != "" &&
       ((all.find? (fun conv => conv.id == currentId && conv.userId == userId)).isSome)
    then { s1 with current := none }
    else s1
  | none => s1

/-- `clearUserConversations(userId)`: parse the full list (an unparseable
store throws inside the try block, so nothing changes), keep only other
users' records, and drop the current-conversation pointer when it named one
of the removed records. -/
def clearUserConversations (window : Bool) (userId : String) (s : ConvState) : ConvState :=
  if !window then s
  else
    match s.convs with
    | StoredConvs.corrupt => s
    | StoredConvs.absent => clearUserConversationsCore [] userId s
    | StoredConvs.stored xs => clearUserConversationsCore xs userId s

/-! ### Specification-side definitions (written from the spec's words, for
refinement comparison with the code-side definitions above) -/

/-- Variant nibble of an RFC 4122 version-4 UUID: one of 8, 9, a, b (either case). -/
def isVariantChar (c : Char) : Bool :=
  c == '8' || c == '9' || c == 'a' || c == 'b' || c == 'A' || c == 'B'

/-- Modelled from the spec: a well-formed UUID-v4 string — five dash-separated
hex groups of lengths 8-4-4-4-12 whose version nibble is `4` and whose
variant nibble is in `[89ab]`, case-insensitively. -/
def isUUIDv4 (s : String) : Bool :=
  match splitDashes s.toList with
  | [g1, g2, g3, g4, g5] =>
    g1.length == 8 && g1.all isHexDigit &&
    g2.length == 4 && g2.all isHexDigit &&
    g3.length == 4 && g3.all isHexDigit && headOrSpace g3 == '4' &&
    g4.length == 4 && g4.all isHexDigit && isVariantChar (headOrSpace g4) &&
    g5.length == 12 && g5.all isHexDigit
  | _ => false

/-- Modelled from the spec: the general UUID string shape — five
dash-separated hex groups of lengths 8-4-4-4-12, with no version or variant
constraint.  A string failing this is not a UUID of any version. -/
def isUUIDShape (s : String) : Bool :=
  match splitDashes s.toList with
  | [g1, g2, g3, g4, g5] =>
    g1.length == 8 && g1.all isHexDigit &&
    g2.length == 4 && g2.all isHexDigit &&
    g3.length == 4 && g3.all isHexDigit &&
    g4.length == 4 && g4.all isHexDigit &&
    g5.length == 12 && g5.all isHexDigit
  | _ => false

/-- The per-character effect of the full sanitization chain: angles deleted,
quotes double-escaped (the ampersand introduced by the quote entity is
itself escaped by the final replace), ampersands escaped once. -/
def escChar (c : Char) : List Char :=
  if c == '<' || c == '>' then []
  else if c == '"' then ['&', 'a', 'm', 'p', ';', 'q', 'u', 'o', 't', ';']
  else if c == squote then ['&', 'a', 'm', 'p', ';', '#', '3', '9', ';']
  else if c == '&' then entAmp
  else [c]

/-! ### General-purpose lemmas -/

theorem length_beq_zero_iff (l : List α) : (l.length == 0) = true ↔ l = [] := by
  cases l <;> simp

theorem concatMap_append (f : Char → List Char) (l1 l2 : List Char) :
    concatMap f (l1 ++ l2) = concatMap f l1 ++ concatMap f l2 := by
  induction l1 with
  | nil => rfl
  | cons c t ih => simp [concatMap, ih]

theorem mem_concatMap (f : Char → List Char) (x : Char) (l : List Char) :
    x ∈ concatMap f l ↔ ∃ a ∈ l, x ∈ f a := by
  induction l with
  | nil => simp [concatMap]
  | cons c t ih => simp [concatMap, ih]

theorem filter_subpred (p q : α → Bool) (h : ∀ a, p a = true → q a = true) (l : List α) :
    (l.filter q).filter p = l.filter p := by
  induction l with
  | nil => rfl
  | cons a t ih =>
    by_cases hq : q a = true
    · by_cases hp : p a = true <;> simp [hq, hp, List.filter_cons, ih]
    · have hp : ¬ p a = true := fun hpa => hq (h a hpa)
      simp [hq, hp, List.filter_cons, ih]

theorem filter_filter_and (p q : α → Bool) (l : List α) :
    (l.filter p).filter q = l.filter (fun a => p a && q a) := by
  induction l with
  | nil => rfl
  | cons a t ih =>
    by_cases hp : p a = true
    · by_cases hq : q a = true <;> simp [hp, hq, List.filter_cons, ih]
    · simp [hp, List.filter_cons, ih]

theorem find?_isSome_of_mem (p : α → Bool) (l : List α) (x : α) (hx : x ∈ l)
    (hp : p x = true) : (l.find? p).isSome = true := by
  induction l with
  | nil => cases hx
  | cons a t ih =>
    cases ha : p a with
    | true => simp [List.find?, ha]
    | false =>
      rcases List.mem_cons.mp hx with rfl | hmem
      · rw [ha] at hp; cases hp
      · simp [List.find?, ha, ih hmem]

theorem mem_setAt (l : List α) (i : Nat) (y x : α) (hx : x ∈ setAt l i y) :
    x = y ∨ x ∈ l := by
  induction l generalizing i with
  | nil => cases hx
  | cons a t ih =>
    cases i with
    | zero =>
      rcases List.mem_cons.mp hx with rfl | hmem
      · exact Or.inl rfl
      · exact Or.inr (List.mem_cons_of_mem _ hmem)
    | succ n =>
      rcases List.mem_cons.mp hx with rfl | hmem
      · exact Or.inr (List.mem_cons_self _ _)
      · rcases ih n hmem with h | h
        · exact Or.inl h
        · exact Or.inr (List.mem_cons_of_mem _ h)

/-! ### Lemmas about the UUID regex model -/

theorem splitDashes_ne_nil (cs : List Char) : splitDashes cs ≠ [] := by
  induction cs with
  | nil => simp [splitDashes]
  | cons c rest ih =>
    unfold splitDashes
    by_cases h : (c == '-') = true
    · simp [h]
    · rw [Bool.not_eq_true] at h
      rw [if_neg (by simp [h])]
      cases hs : splitDashes rest <;> simp

/-- Reassemble dash-separated groups. -/
def joinDashes : List (List Char) → List Char
  | [] => []
  | [g] => g
  | g :: gs => g ++ '-' :: joinDashes gs

theorem joinDashes_cons_cons (c : Char) (g : List Char) (gs : List (List Char)) :
    joinDashes ((c :: g) :: gs) = c :: joinDashes (g :: gs) := by
  cases gs <;> simp [joinDashes]

theorem join_splitDashes (cs : List Char) : joinDashes (splitDashes cs) = cs := by
  induction cs with
  | nil => rfl
  | cons c rest ih =>
    unfold splitDashes
    by_cases h : (c == '-') = true
    · have hc : c = '-' := by simpa using h
      rw [if_pos h]
      cases hs : splitDashes rest with
      | nil => exact absurd hs (splitDashes_ne_nil rest)
      | cons g gs =>
        have : joinDashes ([] :: g :: gs) = '-' :: joinDashes (g :: gs) := by
          simp [joinDashes]
        rw [this, ← hs, ih, hc]
    · rw [if_neg h]
      cases hs : splitDashes rest with
      | nil => exact absurd hs (splitDashes_ne_nil rest)
      | cons g gs =>
        rw [joinDashes_cons_cons, ← hs, ih]

theorem toList_length_eq (s : String) : s.toList.length = s.length := rfl

theorem length_of_five_groups (s : String) (g1 g2 g3 g4 g5 : List Char)
    (heq : splitDashes s.toList = [g1, g2, g3, g4, g5]) :
    s.length = g1.length + g2.length + g3.length + g4.length + g5.length + 4 := by
  have h := join_splitDashes s.toList
  rw [heq] at h
  have hlen : s.toList.length = (joinDashes [g1, g2, g3, g4, g5]).length := by rw [h]
  rw [toList_length_eq] at hlen
  simp [joinDashes] at hlen
  omega

/-! ### Invariant lemmas for the validators -/

theorem validateMessage_isValid_eq (m : String) :
    (validateMessage m).isValid = ((validateMessage m).errors.length == 0) := rfl

theorem validateConversationId_isValid_eq (id : Option String) :
    (validateConversationId id).isValid = ((validateConversationId id).errors.length == 0) := by
  cases id <;> rfl

theorem validateUserId_isValid_eq (u : String) :
    (validateUserId u).isValid = ((validateUserId u).errors.length == 0) := rfl

theorem validateMetadata_isValid_eq (md : Option JsValue) :
    (validateMetadata md).isValid = ((validateMetadata md).errors.length == 0) := by
  cases md with
  | none => rfl
  | some v => cases v <;> rfl

theorem validateChatRequest_isValid_eq (r : ChatRequest) :
    (validateChatRequest r).isValid = ((validateChatRequest r).errors.length == 0) := rfl

theorem validateMessage_isValid_iff (m : String) :
    (validateMessage m).isValid = true ↔ (validateMessage m).errors = [] := by
  rw [validateMessage_isValid_eq]; exact length_beq_zero_iff _

theorem validateConversationId_isValid_iff (id : Option String) :
    (validateConversationId id).isValid = true ↔ (validateConversationId id).errors = [] := by
  rw [validateConversationId_isValid_eq]; exact length_beq_zero_iff _

theorem validateUserId_isValid_iff (u : String) :
    (validateUserId u).isValid = true ↔ (validateUserId u).errors = [] := by
  rw [validateUserId_isValid_eq]; exact length_beq_zero_iff _

theorem validateMetadata_isValid_iff (md : Option JsValue) :
    (validateMetadata md).isValid = true ↔ (validateMetadata md).errors = [] := by
  rw [validateMetadata_isValid_eq]; exact length_beq_zero_iff _

theorem validateChatRequest_isValid_iff (r : ChatRequest) :
    (validateChatRequest r).isValid = true ↔ (validateChatRequest r).errors = [] := by
  rw [validateChatRequest_isValid_eq]; exact length_beq_zero_iff _

theorem validateMessage_warnings_eq (m : String) :
    (validateMessage m).warnings =
      if hasSpecialChar m then some [specialCharsWarning] else none := by
  cases h : hasSpecialChar m <;> simp [validateMessage, h]

/-- The errors a failing sub-validator contributes equal its full error list:
a passing one has no errors at all. -/
theorem errors_if_invalid (v : ValidationResult)
    (hv : v.isValid = (v.errors.length == 0)) :
    (if !v.isValid then v.errors else []) = v.errors := by
  cases h : v.isValid
  · simp
  · have he : v.errors = [] := (length_beq_zero_iff _).mp (h ▸ hv).symm
    simp [he]

/-! ### Lemmas about the conversation cache -/

/-- Recursive form of the findIndex/assign-or-push upsert. -/
def upsertRec (c : ConversationMetadata) (now : String) :
    List ConversationMetadata → List ConversationMetadata
  | [] => [stampNew c now]
  | a :: t =>
    if a.id == c.id then mergeConversation a c now :: t
    else a :: upsertRec c now t

theorem upsertConversation_eq_upsertRec (c : ConversationMetadata) (now : String)
    (l : List ConversationMetadata) : upsertConversation c now l = upsertRec c now l := by
  induction l with
  | nil => rfl
  | cons a t ih =>
    unfold upsertConversation upsertRec
    by_cases h : (a.id == c.id) = true
    · simp [jsFindIndex, h, setAt, getAt]
    · rw [Bool.not_eq_true] at h
      simp only [jsFindIndex, h, Bool.false_eq_true, if_false]
      cases hf : jsFindIndex (fun conv => conv.id == c.id) t with
      | none =>
        rw [← ih]
        unfold upsertConversation
        rw [hf]
        simp
      | some j =>
        rw [← ih]
        unfold upsertConversation
        rw [hf]
        simp [setAt, getAt]

theorem upsertRec_userId (c : ConversationMetadata) (now : String)
    (l : List ConversationMetadata) (hl : ∀ r ∈ l, r.userId = c.userId) :
    ∀ r ∈ upsertRec c now l, r.userId = c.userId := by
  induction l with
  | nil =>
    intro r hr
    simp [upsertRec] at hr
    subst hr; rfl
  | cons a t ih =>
    intro r hr
    unfold upsertRec at hr
    by_cases h : (a.id == c.id) = true
    · rw [if_pos h] at hr
      rcases List.mem_cons.mp hr with rfl | hmem
      · rfl
      · exact hl r (List.mem_cons_of_mem _ hmem)
    · rw [Bool.not_eq_true] at h
      rw [if_neg (by simp [h])] at hr
      rcases List.mem_cons.mp hr with rfl | hmem
      · exact hl r (List.mem_cons_self _ _)
      · exact ih (fun x hx => hl x (List.mem_cons_of_mem _ hx)) r hmem

theorem upsertRec_count (c : ConversationMetadata) (now : String)
    (l : List ConversationMetadata) :
    ((upsertRec c now l).filter (fun r => r.id == c.id)).length =
      if (l.filter (fun r => r.id == c.id)).length = 0 then 1
      else (l.filter (fun r => r.id == c.id)).length := by
  induction l with
  | nil => simp [upsertRec, stampNew, List.filter]
  | cons a t ih =>
    unfold upsertRec
    by_cases h : (a.id == c.id) = true
    · rw [if_pos h]
      have hm : ((mergeConversation a c now).id == c.id) = true := by simp [mergeConversation]
      simp [List.filter_cons, hm, h]
    · rw [Bool.not_eq_true] at h
      rw [if_neg (by simp [h])]
      simp [List.filter_cons, h, ih]

theorem clearUserConversationsCore_convs (all : List ConversationMetadata) (u : String)
    (s : ConvState) :
    (clearUserConversationsCore all u s).convs =
      StoredConvs.stored (all.filter (fun conv => conv.userId != u)) := by
  obtain ⟨sconvs, scur⟩ := s
  unfold clearUserConversationsCore
  cases scur with
  | none => rfl
  | some cid =>
    dsimp only
    by_cases h :
        (cid != "" && (all.find? (fun conv => conv.id == cid && conv.userId == u)).isSome) = true
    · rw [if_pos h]
    · rw [if_neg h]

theorem clearUserConversationsCore_current_cleared (all : List ConversationMetadata)
    (u : String) (s : ConvState) (cid : String) (hcur : s.current = some cid)
    (hne : cid ≠ "") (hex : ∃ conv ∈ all, conv.id = cid ∧ conv.userId = u) :
    (clearUserConversationsCore all u s).current = none := by
  obtain ⟨conv, hmem, hid, huid⟩ := hex
  obtain ⟨sconvs, scur⟩ := s
  simp only at hcur
  subst hcur
  have hfind : ((all.find? (fun cv => cv.id == cid && cv.userId == u)).isSome) = true :=
    find?_isSome_of_mem _ _ conv hmem (by simp [hid, huid])
  have hb : (cid != "") = true := by simpa using hne
  simp [clearUserConversationsCore, hb, hfind]

/-! ### Lemmas about the sanitization chain -/

theorem replaceChar_append (t : Char) (r : List Char) (l1 l2 : List Char) :
    replaceChar t r (l1 ++ l2) = replaceChar t r l1 ++ replaceChar t r l2 :=
  concatMap_append _ l1 l2

theorem stripAngles_cons (c : Char) (t : List Char) :
    stripAngles (c :: t) = stripAngles [c] ++ stripAngles t := by
  unfold stripAngles
  simp only [List.filter_cons, List.filter_nil]
  split <;> simp

theorem sanitizeChain_single (c : Char) :
    replaceChar '&' entAmp
      (replaceChar squote entApos
        (replaceChar '"' entQuot (stripAngles [c]))) = escChar c := by
  by_cases h1 : c = '<'
  · subst h1; decide
  by_cases h2 : c = '>'
  · subst h2; decide
  by_cases h3 : c = '"'
  · subst h3; decide
  by_cases h4 : c = squote
  · subst h4; decide
  by_cases h5 : c = '&'
  · subst h5; decide
  have b1 : (c == '<') = false := by simp [h1]
  have b2 : (c == '>') = false := by simp [h2]
  have b3 : (c == '"') = false := by simp [h3]
  have b4 : (c == squote) = false := by simp [h4]
  have b5 : (c == '&') = false := by simp [h5]
  simp [stripAngles, replaceChar, concatMap, escChar, b1, b2, b3, b4, b5, h1, h2, h3, h4, h5]

theorem sanitizeChain_eq (cs : List Char) :
    replaceChar '&' entAmp
      (replaceChar squote entApos
        (replaceChar '"' entQuot (stripAngles cs))) = concatMap escChar cs := by
  induction cs with
  | nil => rfl
  | cons c t ih =>
    rw [stripAngles_cons, replaceChar_append, replaceChar_append, replaceChar_append,
        sanitizeChain_single, ih]
    rfl

theorem sanitizeMessage_eq_concatMap (m : String) :
    sanitizeMessage m = String.mk (concatMap escChar m.toList) := by
  simp only [sanitizeMessage]
  rw [sanitizeChain_eq]

theorem escChar_no_angles (c x : Char) (hx : x ∈ escChar c) : x ≠ '<' ∧ x ≠ '>' := by
  unfold escChar at hx
  split_ifs at hx with h1 h2 h3 h4
  · simp at hx
  · fin_cases hx <;> exact ⟨by decide, by decide⟩
  · fin_cases hx <;> exact ⟨by decide, by decide⟩
  · simp only [entAmp] at hx
    fin_cases hx <;> exact ⟨by decide, by decide⟩
  · simp only [List.mem_singleton] at hx
    subst hx
    constructor
    · intro hc; subst hc; exact h1 (by decide)
    · intro hc; subst hc; exact h1 (by decide)

/-! ### Claim theorems -/

/-- Claim C10: every ValidationResult returned by validateMessage,
validateConversationId, validateUserId, validateMetadata and
validateChatRequest satisfies the invariant that `isValid` is true if and
only if its `errors` list is empty. -/
theorem validators_isValid_iff_errors_empty :
    (∀ m : String, (validateMessage m).isValid = true ↔ (validateMessage m).errors = []) ∧
    (∀ id : Option String,
      (validateConversationId id).isValid = true ↔ (validateConversationId id).errors = []) ∧
    (∀ u : String, (validateUserId u).isValid = true ↔ (validateUserId u).errors = []) ∧
    (∀ md : Option JsValue,
      (validateMetadata md).isValid = true ↔ (validateMetadata md).errors = []) ∧
    (∀ r : ChatRequest,
      (validateChatRequest r).isValid = true ↔ (validateChatRequest r).errors = []) :=
  ⟨validateMessage_isValid_iff, validateConversationId_isValid_iff, validateUserId_isValid_iff,
   validateMetadata_isValid_iff, validateChatRequest_isValid_iff⟩

/-- Claim C6: validateMessage accepts exactly the non-blank length-bounded
messages: a non-blank message of length at most 4000 with no special
characters is valid with an empty error list; the empty and all-whitespace
strings are invalid with a non-empty error list; and every message of
length 4001 yields exactly one error string containing "4001". -/
theorem validateMessage_boundary_spec :
    (∀ m : String, isBlank m = false → m.length ≤ 4000 → hasSpecialChar m = false →
      (validateMessage m).isValid = true ∧ (validateMessage m).errors = []) ∧
    validateMessage "" =
      { isValid := false, errors := [emptyMessageError], warnings := none } ∧
    validateMessage "   " =
      { isValid := false, errors := [emptyMessageError], warnings := none } ∧
    (∀ m : String, m.length = 4001 →
      ((validateMessage m).errors.filter (fun e => strContains e "4001")).length = 1) := by
  refine ⟨?_, by decide, by decide, ?_⟩
  · intro m h1 h2 h3
    have h4 : ¬(m.length > 4000) := by omega
    constructor <;> simp [validateMessage, h1, h4]
  · intro m h
    have h4 : m.length > 4000 := by omega
    have t1 : strContains (lengthErrorMsg 4001) "4001" = true := by decide
    have t2 : strContains emptyMessageError "4001" = false := by decide
    cases hb : isBlank m <;>
      simp [validateMessage, hb, h4, h, List.filter_cons, t1, t2]

/-- Witness for Claim C6: the theorem's hypotheses discharged at the
message "hello" and at a concrete 4001-character message. -/
theorem validateMessage_boundary_spec_witness :
    ((validateMessage "hello").isValid = true ∧ (validateMessage "hello").errors = []) ∧
    ((String.mk (List.replicate 4001 'x')).length = 4001 ∧
      ((validateMessage (String.mk (List.replicate 4001 'x'))).errors.filter
        (fun e => strContains e "4001")).length = 1) := by
  have hlen : (String.mk (List.replicate 4001 'x')).length = 4001 := by
    have h0 : (String.mk (List.replicate 4001 'x')).length = (List.replicate 4001 'x').length := rfl
    rw [h0, List.length_replicate]
  exact ⟨validateMessage_boundary_spec.1 "hello" (by decide) (by decide) (by decide),
         hlen, validateMessage_boundary_spec.2.2.2 _ hlen⟩

/-- Claim C5 counterexample: the message "a&b" passes validateMessage with a
special-characters warning, yet validateChatRequest on that request returns
no warnings at all — warnings of a passing message validator are dropped. -/
theorem validateChatRequest_drops_warnings :
    (validateMessage "a&b").isValid = true ∧
    (validateMessage "a&b").warnings = some [specialCharsWarning] ∧
    (validateChatRequest { message := "a&b" }).warnings = none :=
  ⟨by decide, by decide, by decide⟩

/-- Claim C5 (amended): validateChatRequest runs all sub-validators without
short-circuiting and its errors are the concatenation of their error lists;
its warnings, however, equal the message validator's warnings only when
the message fails validation, and are `none` when the message passes
(warnings of a valid message are dropped). -/
theorem validateChatRequest_concatenation :
    ∀ r : ChatRequest,
      (validateChatRequest r).errors =
        (validateMessage r.message).errors ++
        (match r.conversation_id with
          | none => []
          | some cid => (validateConversationId cid).errors) ++
        (match r.metadata with
          | none => []
          | some m => (validateMetadata (some m)).errors) ∧
      (validateChatRequest r).warnings =
        cond (validateMessage r.message).isValid none (validateMessage r.message).warnings := by
  intro r
  obtain ⟨msg, ocid, omd⟩ := r
  constructor
  · cases ocid <;> cases omd <;>
      (simp only [validateChatRequest]
       rw [apply_ite Prod.fst]
       dsimp only
       rw [errors_if_invalid _ (validateMessage_isValid_eq _)]
       try rw [errors_if_invalid _ (validateConversationId_isValid_eq _)]
       try rw [errors_if_invalid _ (validateMetadata_isValid_eq _)])
  · by_cases hm : (validateMessage msg).isValid = true
    · simp [validateChatRequest, hm]
    · have hm' : (validateMessage msg).isValid = false := by simpa using hm
      cases hs : hasSpecialChar msg <;>
        simp [validateChatRequest, hm', validateMessage_warnings_eq, hs]

/-- Claim C1: evaluation of handleChatKitError at the spec's inputs.  A bare
`\x7bstatus: 401\x7d` (and likewise `\x7bstatus: 500\x7d`) never reaches the status
switch: with `message` undefined and `name` not "TypeError", the guard
evaluates `error.message.includes("fetch")` and throws a TypeError, so the
classifier crashes instead of returning an authentication/server error.
The name-based network case and the typed pass-through behave as claimed,
and a status object that does carry a message reaches the switch. -/
theorem handleChatKitError_spec_inputs :
    handleChatKitError (RawError.mk none none none (some 401) none) =
      Except.error undefinedIncludesError ∧
    handleChatKitError (RawError.mk none none none (some 500) none) =
      Except.error undefinedIncludesError ∧
    handleChatKitError (RawError.mk none none (some "TypeError") none none) =
      Except.ok (createChatKitError "network" networkErrorMsg none
        (some (RawError.mk none none (some "TypeError") none none))) ∧
    handleChatKitError (RawError.mk (some "validation") (some "bad input") none none none) =
      Except.ok (RawError.mk (some "validation") (some "bad input") none none none) ∧
    handleChatKitError (RawError.mk none (some "boom") none (some 401) none) =
      Except.ok (createChatKitError "authentication" authRequiredMsg (some 401)
        (some (RawError.mk none (some "boom") none (some 401) none))) :=
  ⟨rfl, rfl, rfl, rfl, rfl⟩

/-- A valid message containing every character of the class `<>'"&`. -/
def c2Input : String := "<a>" ++ "\"b" ++ squote.toString ++ "c&d"

/-- Claim C2 counterexample: the request with message `c2Input` passes
validation, its prepared message has the angle brackets removed, but the
double quote does not appear as the entity `&quot;` nor the single quote as
`&#39;` — the ampersand replace runs last and double-escapes them to
`&amp;quot;` and `&amp;#39;`. -/
theorem prepareChatRequest_double_escapes :
    (prepareChatRequest { message := c2Input }).2.isValid = true ∧
    c2Input.toList.contains '<' = true ∧
    c2Input.toList.contains '>' = true ∧
    c2Input.toList.contains '&' = true ∧
    c2Input.toList.contains '"' = true ∧
    c2Input.toList.contains squote = true ∧
    strContains (prepareChatRequest { message := c2Input }).1.message "&quot;" = false ∧
    strContains (prepareChatRequest { message := c2Input }).1.message "&#39;" = false ∧
    (prepareChatRequest { message := c2Input }).1.message = "a&amp;quot;b&amp;#39;c&amp;d" := by
  refine ⟨by decide, by decide, by decide, by decide, by decide, by decide,
          by decide, by decide, by decide⟩

/-- Claim C2 (amended): for every request that passes validation, the
prepared request's message is the character-wise sanitization of the
original — angle brackets removed, each ampersand escaped to `&amp;`, each
double quote double-escaped to `&amp;quot;` and each single quote to
`&amp;#39;` — and it contains no raw `<` or `>`. -/
theorem prepareChatRequest_sanitized_form :
    ∀ r : ChatRequest, (validateChatRequest r).isValid = true →
      (prepareChatRequest r).1.message = String.mk (concatMap escChar r.message.toList) ∧
      ∀ c ∈ (prepareChatRequest r).1.message.toList, c ≠ '<' ∧ c ≠ '>' := by
  intro r h
  have hmsg : (prepareChatRequest r).1.message = sanitizeMessage r.message := by
    simp [prepareChatRequest, h]
  constructor
  · rw [hmsg, sanitizeMessage_eq_concatMap]
  · intro c hc
    rw [hmsg, sanitizeMessage_eq_concatMap] at hc
    have hc' : c ∈ concatMap escChar r.message.toList := hc
    obtain ⟨a, _, hca⟩ := (mem_concatMap _ _ _).mp hc'
    exact escChar_no_angles a c hca

/-- Witness for Claim C2 (amended) at the concrete message "x<y&". -/
theorem prepareChatRequest_sanitized_form_witness :
    (validateChatRequest { message := "x<y&" }).isValid = true ∧
    ((prepareChatRequest { message := "x<y&" }).1.message =
        String.mk (concatMap escChar ("x<y&".toList)) ∧
      ∀ c ∈ (prepareChatRequest { message := "x<y&" }).1.message.toList,
        c ≠ '<' ∧ c ≠ '>') :=
  ⟨by decide, prepareChatRequest_sanitized_form { message := "x<y&" } (by decide)⟩

/-- Claim C3 counterexample: ChatAPIClient.sendMessage, given a 401
response, raises its generic HTTP error while leaving the stored token in
place — the auth store is not cleared, unlike what clearing would produce. -/
theorem chatClient_401_keeps_token :
    getToken true
        (chatAPIClientSendMessage true (storeAuth true [] "tok" "alice")
          { status := 401 }).1 = some "tok" ∧
    getToken true (clearAuth true (storeAuth true [] "tok" "alice")) = none ∧
    (chatAPIClientSendMessage true (storeAuth true [] "tok" "alice")
        { status := 401 }).2 = Except.error "HTTP error! status: 401" :=
  ⟨by decide, by decide, rfl⟩

/-- Claim C3 (amended): on a 401 response, ReminderClient.request,
ReminderClient.deleteReminder and the primary apiRequest clear the auth
store before raising or returning their error, while
ChatAPIClient.sendMessage and the chat adapter's sendMessage raise without
touching the auth store. -/
theorem auth_store_on_401 :
    ∀ (window : Bool) (ls : LocalStorage) (resp : HttpResponse) (errField : Option String),
      resp.status = 401 →
      (reminderClientRequest window ls resp).1 = clearAuth window ls ∧
      (reminderClientDeleteReminder window ls resp).1 = clearAuth window ls ∧
      (apiRequest window ls resp).1 = clearAuth window ls ∧
      (chatAPIClientSendMessage window ls resp).1 = ls ∧
      (adapterSendMessage window ls resp errField).1 = ls := by
  intro window ls resp errField h
  have h1 : isOkStatus resp.status = false := by rw [h]; rfl
  have h2 : (resp.status == 401) = true := by rw [h]; rfl
  refine ⟨?_, ?_, ?_, ?_, ?_⟩ <;>
    simp [reminderClientRequest, reminderClientDeleteReminder, apiRequest,
          chatAPIClientSendMessage, adapterSendMessage, h1, h2]

/-- Witness for Claim C3 (amended) at a concrete 401 response and store. -/
theorem auth_store_on_401_witness :
    (({ status := 401 } : HttpResponse).status = 401) ∧
    ((reminderClientRequest true [("access_token", "tok")] { status := 401 }).1 =
        clearAuth true [("access_token", "tok")] ∧
      (reminderClientDeleteReminder true [("access_token", "tok")] { status := 401 }).1 =
        clearAuth true [("access_token", "tok")] ∧
      (apiRequest true [("access_token", "tok")] { status := 401 }).1 =
        clearAuth true [("access_token", "tok")] ∧
      (chatAPIClientSendMessage true [("access_token", "tok")] { status := 401 }).1 =
        [("access_token", "tok")] ∧
      (adapterSendMessage true [("access_token", "tok")] { status := 401 } none).1 =
        [("access_token", "tok")]) :=
  ⟨rfl, auth_store_on_401 true [("access_token", "tok")] { status := 401 } none rfl⟩

/-- Claim C4: with a storage-capable environment and a parseable store,
saveConversation writes back exactly the upsert of the store filtered to the
saved conversation's user — every persisted record afterwards belongs to
that user, so records of any other user are removed by the write. -/
theorem saveConversation_rewrites_to_single_user :
    ∀ (now : String) (c : ConversationMetadata) (xs : List ConversationMetadata)
      (cur : Option String),
      ∃ ys,
        (saveConversation true now c ⟨StoredConvs.stored xs, cur⟩).convs =
          StoredConvs.stored ys ∧
        ys = upsertConversation c now (xs.filter (fun r => r.userId == c.userId)) ∧
        (∀ r ∈ ys, r.userId = c.userId) ∧
        (∀ v, ¬v = c.userId →
          getUserConversations true v
            (saveConversation true now c ⟨StoredConvs.stored xs, cur⟩) = []) := by
  intro now c xs cur
  refine ⟨upsertConversation c now (xs.filter (fun r => r.userId == c.userId)),
          rfl, rfl, ?_, ?_⟩
  · rw [upsertConversation_eq_upsertRec]
    exact upsertRec_userId c now _ (fun r hr => by simpa using (List.mem_filter.mp hr).2)
  · intro v hv
    show (upsertConversation c now (xs.filter (fun r => r.userId == c.userId))).filter
        (fun conv => conv.userId == v) = []
    rw [upsertConversation_eq_upsertRec]
    apply List.filter_eq_nil_iff.mpr
    intro a ha
    have ha' := upsertRec_userId c now _
      (fun r hr => by simpa using (List.mem_filter.mp hr).2) a ha
    intro hbeq
    have hav : a.userId = v := by simpa using hbeq
    rw [hav] at ha'
    exact hv ha'

/-- A conversation record of user "u" used as a concrete witness input. -/
def convU : ConversationMetadata :=
  { id := "c1", userId := "u", createdAt := "t0", updatedAt := "t0" }

/-- A conversation record of user "v" used as a concrete witness input. -/
def convV : ConversationMetadata :=
  { id := "c2", userId := "v", createdAt := "t0", updatedAt := "t0" }

/-- Witness for Claim C4: saving one of user "u"'s conversations into a
store holding only user "v"'s record erases that record. -/
theorem saveConversation_rewrites_witness :
    getUserConversations true "v"
        (saveConversation true "t1" convU ⟨StoredConvs.stored [convV], none⟩) = [] ∧
    (saveConversation true "t1" convU ⟨StoredConvs.stored [convV], none⟩).convs =
      StoredConvs.stored [stampNew convU "t1"] := by
  obtain ⟨ys, h1, h2, h3, h4⟩ :=
    saveConversation_rewrites_to_single_user "t1" convU [convV] none
  exact ⟨h4 "v" (by decide), by decide⟩

/-- Claim C8: in a storage-capable environment with a parseable store,
clearing a user's conversations empties that user's list, leaves every
other user's records untouched, and clears the current-conversation pointer
when it referenced one of the removed conversations. -/
theorem clearUserConversations_spec :
    ∀ (u : String) (xs : List ConversationMetadata) (cur : Option String),
      getUserConversations true u
        (clearUserConversations true u ⟨StoredConvs.stored xs, cur⟩) = [] ∧
      (∀ v, ¬v = u →
        getUserConversations true v
            (clearUserConversations true u ⟨StoredConvs.stored xs, cur⟩) =
          getUserConversations true v ⟨StoredConvs.stored xs, cur⟩) ∧
      (∀ cid, cur = some cid → ¬cid = "" →
        (∃ conv ∈ xs, conv.id = cid ∧ conv.userId = u) →
        (clearUserConversations true u ⟨StoredConvs.stored xs, cur⟩).current = none) := by
  intro u xs cur
  have hconvs : (clearUserConversations true u ⟨StoredConvs.stored xs, cur⟩).convs =
      StoredConvs.stored (xs.filter (fun conv => conv.userId != u)) := by
    show (clearUserConversationsCore xs u ⟨StoredConvs.stored xs, cur⟩).convs = _
    exact clearUserConversationsCore_convs xs u _
  refine ⟨?_, ?_, ?_⟩
  · have h1 : getUserConversations true u
        (clearUserConversations true u ⟨StoredConvs.stored xs, cur⟩) =
        (xs.filter (fun conv => conv.userId != u)).filter (fun conv => conv.userId == u) := by
      simp [getUserConversations, hconvs]
    rw [h1]
    apply List.filter_eq_nil_iff.mpr
    intro a ha hbeq
    have hne : a.userId ≠ u := by simpa using (List.mem_filter.mp ha).2
    exact hne (by simpa using hbeq)
  · intro v hv
    have hL : getUserConversations true v
        (clearUserConversations true u ⟨StoredConvs.stored xs, cur⟩) =
        (xs.filter (fun conv => conv.userId != u)).filter (fun conv => conv.userId == v) := by
      simp [getUserConversations, hconvs]
    rw [hL]
    show _ = xs.filter (fun conv => conv.userId == v)
    apply filter_subpred
    intro a hpa
    have hav : a.userId = v := by simpa using hpa
    rw [hav]
    simpa using hv
  · intro cid hcur hne hex
    show (clearUserConversationsCore xs u ⟨StoredConvs.stored xs, cur⟩).current = none
    exact clearUserConversationsCore_current_cleared xs u _ cid hcur hne hex

/-- Witness for Claim C8 at a concrete two-user store whose pointer names
user "u"'s conversation. -/
theorem clearUserConversations_spec_witness :
    getUserConversations true "u"
      (clearUserConversations true "u" ⟨StoredConvs.stored [convU, convV], some "c1"⟩) = [] ∧
    getUserConversations true "v"
      (clearUserConversations true "u" ⟨StoredConvs.stored [convU, convV], some "c1"⟩) = [convV] ∧
    (clearUserConversations true "u" ⟨StoredConvs.stored [convU, convV], some "c1"⟩).current =
      none := by
  obtain ⟨h1, h2, h3⟩ := clearUserConversations_spec "u" [convU, convV] (some "c1")
  refine ⟨h1, ?_, ?_⟩
  · rw [h2 "v" (by decide)]; decide
  · exact h3 "c1" rfl (by decide) ⟨convU, by simp, rfl, rfl⟩

/-- Claim C9: saving the same conversation twice (any timestamps) into a
store holding at most one record with that user and id leaves exactly one
record with that id among the user's conversations — the second call
updates in place instead of appending a duplicate. -/
theorem saveConversation_upsert_idempotent :
    ∀ (now1 now2 : String) (c : ConversationMetadata) (xs : List ConversationMetadata)
      (cur : Option String),
      (xs.filter (fun r => r.userId == c.userId && r.id == c.id)).length ≤ 1 →
      ((getUserConversations true c.userId
          (saveConversation true now2 c
            (saveConversation true now1 c ⟨StoredConvs.stored xs, cur⟩))).filter
        (fun r => r.id == c.id)).length = 1 := by
  intro now1 now2 c xs cur h
  have hall1 : ∀ r ∈ upsertRec c now1 (xs.filter (fun r => r.userId == c.userId)),
      r.userId = c.userId :=
    upsertRec_userId c now1 _ (fun r hr => by simpa using (List.mem_filter.mp hr).2)
  have hget1 : getUserConversations true c.userId
      (saveConversation true now1 c ⟨StoredConvs.stored xs, cur⟩) =
      upsertRec c now1 (xs.filter (fun r => r.userId == c.userId)) := by
    have hconv1 : (saveConversation true now1 c ⟨StoredConvs.stored xs, cur⟩).convs =
        StoredConvs.stored (upsertRec c now1 (xs.filter (fun r => r.userId == c.userId))) := by
      show StoredConvs.stored
          (upsertConversation c now1 (xs.filter (fun r => r.userId == c.userId))) = _
      rw [upsertConversation_eq_upsertRec]
    have hfix1 : (upsertRec c now1 (xs.filter (fun r => r.userId == c.userId))).filter
        (fun conv => conv.userId == c.userId) =
        upsertRec c now1 (xs.filter (fun r => r.userId == c.userId)) :=
      List.filter_eq_self.mpr (fun a ha => by simp [hall1 a ha])
    simp [getUserConversations, hconv1, hfix1]
  have hall2 : ∀ r ∈ upsertRec c now2
      (upsertRec c now1 (xs.filter (fun r => r.userId == c.userId))), r.userId = c.userId :=
    upsertRec_userId c now2 _ hall1
  have hconv2 : (saveConversation true now2 c
      (saveConversation true now1 c ⟨StoredConvs.stored xs, cur⟩)).convs =
      StoredConvs.stored (upsertRec c now2
        (upsertRec c now1 (xs.filter (fun r => r.userId == c.userId)))) := by
    show StoredConvs.stored (upsertConversation c now2 (getUserConversations true c.userId
        (saveConversation true now1 c ⟨StoredConvs.stored xs, cur⟩))) = _
    rw [hget1, upsertConversation_eq_upsertRec]
  have hget2 : getUserConversations true c.userId
      (saveConversation true now2 c
        (saveConversation true now1 c ⟨StoredConvs.stored xs, cur⟩)) =
      upsertRec c now2 (upsertRec c now1 (xs.filter (fun r => r.userId == c.userId))) := by
    have hfix2 : (upsertRec c now2
        (upsertRec c now1 (xs.filter (fun r => r.userId == c.userId)))).filter
        (fun conv => conv.userId == c.userId) =
        upsertRec c now2 (upsertRec c now1 (xs.filter (fun r => r.userId == c.userId))) :=
      List.filter_eq_self.mpr (fun a ha => by simp [hall2 a ha])
    simp [getUserConversations, hconv2, hfix2]
  rw [hget2, upsertRec_count, upsertRec_count]
  have hbase : ((xs.filter (fun r => r.userId == c.userId)).filter
      (fun r => r.id == c.id)).length =
      (xs.filter (fun r => r.userId == c.userId && r.id == c.id)).length := by
    rw [filter_filter_and]
  simp only [hbase]
  split_ifs <;> omega

/-- Witness for Claim C9: two saves of the same record into an empty store
leave exactly one copy. -/
theorem saveConversation_upsert_idempotent_witness :
    (([] : List ConversationMetadata).filter
      (fun r => r.userId == convU.userId && r.id == convU.id)).length ≤ 1 ∧
    ((getUserConversations true convU.userId
        (saveConversation true "t2" convU
          (saveConversation true "t1" convU ⟨StoredConvs.stored [], none⟩))).filter
      (fun r => r.id == convU.id)).length = 1 :=
  ⟨by decide, saveConversation_upsert_idempotent "t1" "t2" convU [] none (by decide)⟩

/-! ### Lemmas relating the UUID regex to the spec-side UUID predicates -/

theorem uuid_v4_implies_regex (s : String) (h : isUUIDv4 s = true) :
    uuidRegexTest s = true := by
  unfold isUUIDv4 at h
  unfold uuidRegexTest
  split at h
  next g1 g2 g3 g4 g5 heq =>
    try simp only [heq]
    simp only [Bool.and_eq_true, and_assoc] at h ⊢
    obtain ⟨h1, h2, h3, h4, h5, h6, h7, h8, h9, h10, h11, h12⟩ := h
    refine ⟨h1, h2, h3, h4, h5, h6, ?_, h8, h9, ?_, h11, h12⟩
    · have hv : headOrSpace g3 = '4' := by simpa using h7
      rw [hv]; decide
    · have hv := h10
      simp only [isVariantChar, Bool.or_eq_true, beq_iff_eq, or_assoc] at hv
      rcases hv with h | h | h | h | h | h <;> rw [h] <;> decide
  next => simp at h

theorem regex_implies_shape (s : String) (h : uuidRegexTest s = true) :
    isUUIDShape s = true := by
  unfold uuidRegexTest at h
  unfold isUUIDShape
  split at h
  next g1 g2 g3 g4 g5 heq =>
    try simp only [heq]
    simp only [Bool.and_eq_true, and_assoc] at h ⊢
    obtain ⟨h1, h2, h3, h4, h5, h6, h7, h8, h9, h10, h11, h12⟩ := h
    exact ⟨h1, h2, h3, h4, h5, h6, h8, h9, h11, h12⟩
  next => simp at h

theorem regex_length (s : String) (h : uuidRegexTest s = true) : s.length = 36 := by
  unfold uuidRegexTest at h
  split at h
  next g1 g2 g3 g4 g5 heq =>
    simp only [Bool.and_eq_true, and_assoc] at h
    obtain ⟨h1, h2, h3, h4, h5, h6, h7, h8, h9, h10, h11, h12⟩ := h
    have e1 : g1.length = 8 := by simpa using h1
    have e2 : g2.length = 4 := by simpa using h3
    have e3 : g3.length = 4 := by simpa using h5
    have e4 : g4.length = 4 := by simpa using h8
    have e5 : g5.length = 12 := by simpa using h11
    have hsum := length_of_five_groups s g1 g2 g3 g4 g5 heq
    omega
  next => simp at h

/-- Claim C7: validateUserId accepts every well-formed UUID-v4 string; it
rejects every string that lacks the general dashed-hex UUID shape (hence
every non-UUID string), and every string longer than 100 characters. -/
theorem validateUserId_uuid_claims :
    (∀ s : String, isUUIDv4 s = true → (validateUserId s).isValid = true) ∧
    (∀ s : String, isUUIDShape s = false → (validateUserId s).isValid = false) ∧
    (∀ s : String, s.length > 100 → (validateUserId s).isValid = false) := by
  refine ⟨?_, ?_, ?_⟩
  · intro s h
    have hr := uuid_v4_implies_regex s h
    have h36 := regex_length s hr
    have hne : s ≠ "" := by
      intro he
      rw [he] at h36
      have h0 : ("" : String).length = 0 := rfl
      omega
    have hbe : (s == "") = false := by
      cases hb : s == "" with
      | true => exact absurd (by simpa using hb) hne
      | false => rfl
    have hlen : ¬(s.length > 100) := by omega
    simp [validateUserId, hbe, hlen, hr]
  · intro s h
    have hrt : uuidRegexTest s = false := by
      cases hb : uuidRegexTest s with
      | false => rfl
      | true =>
        rw [regex_implies_shape s hb] at h
        simp at h
    simp [validateUserId, hrt]
  · intro s h
    have hne : s ≠ "" := by
      intro he
      rw [he] at h
      have h0 : ("" : String).length = 0 := rfl
      omega
    have hbe : (s == "") = false := by
      cases hb : s == "" with
      | true => exact absurd (by simpa using hb) hne
      | false => rfl
    simp [validateUserId, hbe, h]

/-- Witness for Claim C7 at a concrete UUID-v4, a concrete non-UUID string,
and a concrete 101-character string. -/
theorem validateUserId_uuid_claims_witness :
    (isUUIDv4 "123e4567-e89b-42d3-a456-426614174000" = true ∧
      (validateUserId "123e4567-e89b-42d3-a456-426614174000").isValid = true) ∧
    (isUUIDShape "not-a-uuid" = false ∧ (validateUserId "not-a-uuid").isValid = false) ∧
    ((String.mk (List.replicate 101 'a')).length > 100 ∧
      (validateUserId (String.mk (List.replicate 101 'a'))).isValid = false) := by
  have hlen : (String.mk (List.replicate 101 'a')).length = 101 := by
    have h0 : (String.mk (List.replicate 101 'a')).length =
        (List.replicate 101 'a').length := rfl
    rw [h0, List.length_replicate]
  refine ⟨⟨by decide, validateUserId_uuid_claims.1 _ (by decide)⟩,
          ⟨by decide, validateUserId_uuid_claims.2.1 _ (by decide)⟩,
          ⟨by omega, validateUserId_uuid_claims.2.2 _ (by omega)⟩⟩
